import Mathlib

/-!
Shallow embedding of `src/bm2019_temp.py` (Burning Man 2019 temperature
analysis script) together with theorems settling the specification claims.

Modelling conventions:
* Machine floats of the Python source are modelled as rationals (`ℚ`).
* Timezones are modelled as fixed UTC offsets, in seconds east of UTC.
  The script only handles data from the 2019 event (late August / early
  September), during which `US/Pacific` is at the constant daylight-saving
  offset UTC−7 = −25200 s, so a fixed offset is faithful on the modelled
  date range.
* A pandas timezone-aware timestamp is a UTC instant (seconds since the
  epoch) tagged with its timezone.
* A pandas `DataFrame` produced by the loader is a `datetime` column plus
  named numeric columns.
* CSV input to `load_data` is modelled as the already-parsed list of rows
  `(naive timestamp, temperature value)`; `pd.read_csv` / `pd.to_datetime`
  parsing failures are outside the model.
* `raise` is modelled with `Except`; a mutating Python method returns the
  updated object alongside its `Except` result.
-/

set_option maxRecDepth 10000

/-- A timezone, as a named fixed UTC offset (seconds east of UTC). -/
structure Tz where
  name : String
  offset : Int
deriving DecidableEq

/-- `UTC_TZ = "UTC"` from the source globals. -/
def UTC_TZ : Tz := { name := "UTC", offset := 0 }

/-- `PACIFIC_TZ = "US/Pacific"` from the source globals; offset −25200 s
(PDT), the constant offset of that zone on the script's date range. -/
def PACIFIC_TZ : Tz := { name := "US/Pacific", offset := -25200 }

/-- A timezone-aware pandas timestamp: UTC instant (seconds since the
epoch) plus the timezone it is displayed in. -/
structure ZonedTs where
  utc : Int
  tz : Tz
deriving DecidableEq

/-- `Series.dt.tz_localize`: interpret a naive timestamp as wall-clock time
in timezone `tz`. -/
def tz_localize (tz : Tz) (naive : Int) : ZonedTs :=
  { utc := naive - tz.offset, tz := tz }

/-- `Series.dt.tz_convert`: change the display timezone, keeping the
instant. -/
def tz_convert (tz : Tz) (t : ZonedTs) : ZonedTs :=
  { utc := t.utc, tz := tz }

/-- The wall-clock reading of a zoned timestamp, in seconds. -/
def ZonedTs.wall (t : ZonedTs) : Int := t.utc + t.tz.offset

/-- `TEMPERATURE_RANGE = (50, 110)` from the source globals. -/
def TEMPERATURE_RANGE : ℚ × ℚ := (50, 110)

/-- `LINE_COLORS` from the source globals. -/
def LINE_COLORS : List String :=
  ["#1f77b4", "#ff7f0e", "#2ca02c", "#d62728", "#9467bd",
   "#8c564b", "#e377c2", "#7f7f7f", "#bcbd22", "#17becf"]

/-- The table attached to a source by `load_data`: the `datetime` column
plus the named temperature columns, in insertion order. -/
structure DataFrame where
  datetime : List ZonedTs
  cols : List (String × List ℚ)
deriving DecidableEq

/-- Column lookup, `df[name]`. -/
def DataFrame.getCol (df : DataFrame) (c : String) : Option (List ℚ) :=
  (df.cols.find? (fun p => p.1 == c)).map Prod.snd

/-- Column assignment, `df[name] = vals`: replace the column in place if
present, otherwise append it. -/
def DataFrame.setCol (df : DataFrame) (c : String) (vals : List ℚ) : DataFrame :=
  if (df.cols.map Prod.fst).contains c then
    { df with cols := df.cols.map (fun p => if p.1 == c then (c, vals) else p) }
  else
    { df with cols := df.cols ++ [(c, vals)] }

/-- The `TemperatureSource` dataclass.  The dynamically-attached `data`
attribute is modelled as an `Option` field, `none` before `load_data`. -/
structure TemperatureSource where
  filename : String
  recording_location : String
  path : String := "data"
  owner : String := "someone"
  datetime_col : String := "datetime"
  temp_col : String := "temperature"
  temp_units : String := "C"
  data_tz : Tz := PACIFIC_TZ
  display_tz : Tz := PACIFIC_TZ
  tags : List String := []
  color : String := "#1f77b4"
  data : Option DataFrame := none
deriving DecidableEq

/-- `TemperatureSource._f2c`: Fahrenheit to Celsius, `(f - 32) * (5.0 / 9.0)`. -/
def TemperatureSource._f2c (f : ℚ) : ℚ := (f - 32) * (5 / 9)

/-- `TemperatureSource._c2f`: Celsius to Fahrenheit, `c * (9.0 / 5.0) + 32`. -/
def TemperatureSource._c2f (c : ℚ) : ℚ := c * (9 / 5) + 32

/-- `TemperatureSource.load_data` (lines 112–145 of the source).

The CSV is read and its two columns renamed to `datetime` and
`"temperature " ++ temp_units`; timestamps are localized to `data_tz` and
converted to `display_tz`; this partially-processed table is assigned to
`self.data` *before* the unit dispatch.  Then the missing unit column is
added (`_c2f` for a Celsius source, `_f2c` for a Fahrenheit one), a
`ValueError` is raised for any other unit, and finally
`temperature K = temperature C - 273.15` is added (sic: the source
subtracts).  Because Python raises mid-method, the returned descriptor on
the error path still carries the partially-processed table. -/
def TemperatureSource.load_data (s : TemperatureSource) (csv : List (Int × ℚ)) :
    TemperatureSource × Except String Unit :=
  let dt := csv.map (fun r => tz_convert s.display_tz (tz_localize s.data_tz r.1))
  let data0 : DataFrame :=
    { datetime := dt
      cols := [("temperature " ++ s.temp_units, csv.map Prod.snd)] }
  if s.temp_units = "C" then
    let data1 := data0.setCol "temperature F"
      (((data0.getCol "temperature C").getD []).map TemperatureSource._c2f)
    let data2 := data1.setCol "temperature K"
      (((data1.getCol "temperature C").getD []).map (fun c => c - 273.15))
    ({ s with data := some data2 }, Except.ok ())
  else if s.temp_units = "F" then
    let data1 := data0.setCol "temperature C"
      (((data0.getCol "temperature F").getD []).map TemperatureSource._f2c)
    let data2 := data1.setCol "temperature K"
      (((data1.getCol "temperature C").getD []).map (fun c => c - 273.15))
    ({ s with data := some data2 }, Except.ok ())
  else
    ({ s with data := some data0 },
     Except.error "invalid temperature unit selected, unable to convert")

/-- The Fahrenheit entry of `REGISTERED_DATA` (the Altitude Lounge outdoor
logger). -/
def altitude_src : TemperatureSource :=
  { filename := "BurningMan2019 - Altitude Lounge 845&C.csv"
    recording_location := "outdoors"
    owner := "Altitude Lounge"
    datetime_col := "Time"
    temp_col := "Outdoor Temperature (F)"
    temp_units := "F"
    tags := []
    color := "#333333" }

/-- The UTC-recorded entry of `REGISTERED_DATA` (the h12yurt logger). -/
def h12yurt_src : TemperatureSource :=
  { filename := "burningman_2019_myq_h12yurt.csv"
    recording_location := "h12yurt"
    owner := "myq"
    tags := ["AC?"]
    data_tz := UTC_TZ
    color := "#2ca02c" }

/-- A source descriptor whose declared unit is neither `"C"` nor `"F"`. -/
def bad_unit_src : TemperatureSource :=
  { filename := "x.csv"
    recording_location := "somewhere"
    temp_units := "X" }

/-- One row of the sun-transition table produced by `get_sun_transitions`:
that day's sunrise and sunset, and the previous row's sunset (`NaT`,
modelled `none`, in the first row). -/
structure SunRow where
  sunrise : ZonedTs
  sunset : ZonedTs
  prev_sunset : Option ZonedTs
deriving DecidableEq

/-- `pd.date_range(start, end, freq="D")`, dates as day numbers: the
inclusive run of days from `start_date` to `end_date`. -/
def date_range (start_date end_date : Nat) : List Nat :=
  List.range' start_date (end_date + 1 - start_date)

/-- `get_sun_transitions` (lines 203–238 of the source).  The astral
library's solar-position routines `Astral.sunrise_utc` / `Astral.sunset_utc`
are external to the repository and are abstracted as the parameters
`sunrise_utc`, `sunset_utc`, giving the UTC instant for a given day at the
fixed Black Rock City location.  Both columns are then converted to
`PACIFIC_TZ`, and `prev_sunset` is the sunset column shifted down one row
(`Series.shift(1)`). -/
def get_sun_transitions (sunrise_utc sunset_utc : Nat → Int)
    (start_date end_date : Nat) : List SunRow :=
  let dates := date_range start_date end_date
  let sunrise := dates.map (fun d => ({ utc := sunrise_utc d, tz := UTC_TZ } : ZonedTs))
  let sunset := dates.map (fun d => ({ utc := sunset_utc d, tz := UTC_TZ } : ZonedTs))
  let sunrise := sunrise.map (tz_convert PACIFIC_TZ)
  let sunset := sunset.map (tz_convert PACIFIC_TZ)
  let prev_sunset := (none :: sunset.map some).take sunset.length
  ((sunrise.zip sunset).zip prev_sunset).map
    (fun p => { sunrise := p.1.1, sunset := p.1.2, prev_sunset := p.2 })

/-- One `go.Scatter` rectangle trace built by `get_night_rect_traces`. -/
structure RectTrace where
  x : List (Option ZonedTs)
  y : List ℚ
  fill : String
  fillcolor : String
  mode : String
  line_width : ℚ
  opacity : ℚ
  showlegend : Bool
  name : String
deriving DecidableEq

/-- `get_night_rect_traces` (lines 241–267 of the source).  The Python
defaults are `color="gray"`, `name="night"`, `y_range=TEMPERATURE_RANGE`;
theorems instantiate those values. -/
def get_night_rect_traces (daylight_df : List SunRow)
    (color : String) (name : String) (y_range : ℚ × ℚ) : List RectTrace :=
  daylight_df.enum.map (fun p =>
    { x := [p.2.prev_sunset, p.2.prev_sunset, some p.2.sunrise, some p.2.sunrise]
      y := [y_range.1, y_range.2, y_range.2, y_range.1]
      fill := "toself"
      fillcolor := color
      mode := "lines"
      line_width := 0
      opacity := 3 / 10
      showlegend := p.1 == 0
      name := name })

/-- `Series.mean()`. -/
def listMean (l : List ℚ) : ℚ := l.sum / l.length

/-- `ts_to_epoch_seconds` (lines 330–335): `t.astype(int) / 1e9`, i.e. the
UTC epoch seconds of each timestamp. -/
def ts_to_epoch_seconds (t : List ZonedTs) : List ℚ :=
  t.map (fun z => (z.utc : ℚ))

/-- Remainder of a rational by a rational modulus (`x` reduced into
`[0, n)` for `n > 0`), used for `.time()` on a fractional-second mean. -/
def qmod (x n : ℚ) : ℚ := x - n * (⌊x / n⌋ : ℤ)

/-- `mean_time` (lines 338–348): mean of the epoch seconds, re-read as a
naive UTC datetime, optionally localized to UTC and converted to
`PACIFIC_TZ`, then reduced to a time of day (`.time()`, seconds in
`[0, 86400)`).  The Python default is `shift_timezone=True`. -/
def mean_time (ser : List ZonedTs) (shift_timezone : Bool) : ℚ :=
  let mean_epoch_time := listMean (ts_to_epoch_seconds ser)
  let mean_wall :=
    if shift_timezone then mean_epoch_time + (PACIFIC_TZ.offset : ℚ)
    else mean_epoch_time
  qmod mean_wall 86400

/-- A Pacific-timezone timestamp given by its wall-clock seconds. -/
def pacific_wall (w : Int) : ZonedTs :=
  { utc := w - PACIFIC_TZ.offset, tz := PACIFIC_TZ }

/-- One night-shading `go.Scatter` trace of the 24-hour-average plot; its
`x` values are `datetime.time`s, modelled as seconds of day. -/
structure AvgTrace where
  x : List ℚ
  y : List ℚ
  fillcolor : String
  showlegend : Bool
  name : String
deriving DecidableEq

/-- The night-shading part of `plot_period_averages` (lines 374–417 of the
source): the mean sunset and sunrise are computed from `sun_df` with
`mean_time`, but the two shading rectangles are built from the hard-coded
times 00:00, 06:15 (= 22500 s) and 19:42 (= 70920 s), 23:57 (= 86220 s)
— the `sunrise` / `sunset` uses are commented out in the source — with
`y_range = (60, 100)`. -/
def plot_period_averages_night_traces (sun_df : List SunRow) : List AvgTrace :=
  let sunset := mean_time (sun_df.map SunRow.sunset) true
  let sunrise := mean_time (sun_df.map SunRow.sunrise) true
  let y_range : ℚ × ℚ := (60, 100)
  [ { x := [0, 0, 22500, 22500]
      y := [y_range.1, y_range.2, y_range.2, y_range.1]
      fillcolor := "grey"
      showlegend := true
      name := "night" },
    { x := [70920, 70920, 86220, 86220]
      y := [y_range.1, y_range.2, y_range.2, y_range.1]
      fillcolor := "grey"
      showlegend := false
      name := "night" } ]

/-- `3 * (n / 3)`: a timestamp floored to the 3-minute resampling grid. -/
def floor3 (n : Nat) : Nat := 3 * (n / 3)

/-- The index produced by `Series.resample("3T")` on a series whose first
and last timestamps are `a` and `b`: 3-minute bin labels (multiples of
three minutes of the day) from `floor3 a` up to `b`.  Timestamps are
wall-clock minutes in the display timezone. -/
def resample_grid (a b : Nat) : List Nat :=
  List.range' (floor3 a) ((b - floor3 a) / 3 + 1) 3

/-- `Resampler.bfill` at one grid label `t`: the value of the first
observation at or after `t` (`none` past the end of the series). -/
def bfill_at (series : List (Nat × ℚ)) (t : Nat) : Option ℚ :=
  (series.find? (fun p => decide (t ≤ p.1))).map Prod.snd

/-- `daily_mean_for_source` (lines 456–466 of the source), as the
aggregated curve evaluated at a time of day `r` (minutes).  The series is
the source's `temperature F` column indexed by wall-clock minutes (the
`dropna` is the identity here since the modelled values are total);
it is resampled to the 3-minute grid with back-fill, the grid rows are
grouped by time of day (`datetime.dt.time`, i.e. minutes mod 1440), and
each group is averaged.  `none` means the curve has no row at `r`. -/
def daily_mean_for_source (series : List (Nat × ℚ)) (r : Nat) : Option ℚ :=
  match series.head?, series.getLast? with
  | some pa, some pb =>
    let grid := resample_grid pa.1 pb.1
    let vals := (grid.filter (fun g => g % 1440 == r)).filterMap (bfill_at series)
    if vals.isEmpty then none else some (listMean vals)
  | _, _ => none

/-- The day-shifted copy of a one-day series: the same readings 1440
minutes (one day) later.  `day0 ++ shiftDay day0` is a series spanning
exactly two days with identical values at each time of day. -/
def shiftDay (l : List (Nat × ℚ)) : List (Nat × ℚ) :=
  l.map (fun p => (p.1 + 1440, p.2))

/-- The table `load_data` attaches to `h12yurt_src` for the one-row CSV
`[(1000, 20)]`: instant 1000 s displayed in Pacific time, 20 °C = 68 °F,
and `temperature K` as the source computes it (20 − 273.15). -/
def h12yurt_loaded_df : DataFrame :=
  { datetime := [{ utc := 1000, tz := PACIFIC_TZ }]
    cols := [("temperature C", [20]), ("temperature F", [TemperatureSource._c2f 20]),
             ("temperature K", [(20 : ℚ) - 273.15])] }

/-! ## Theorems -/

/-- `setCol` never touches the `datetime` column. -/
theorem DataFrame.setCol_datetime (df : DataFrame) (c : String) (v : List ℚ) :
    (df.setCol c v).datetime = df.datetime := by
  unfold DataFrame.setCol
  split <;> rfl

/-- C2: for every Celsius value `c`, converting to Fahrenheit with `_c2f`
and back with `_f2c` returns `c` exactly (the model computes over `ℚ`, so
the float round-trip tolerance of the spec is exact here). -/
theorem f2c_c2f_roundtrip (c : ℚ) :
    TemperatureSource._f2c (TemperatureSource._c2f c) = c := by
  unfold TemperatureSource._f2c TemperatureSource._c2f
  ring

/-- C9: `load_data` changes nothing but the attached data: every metadata
field of the descriptor is unchanged, on the success paths and on the
failure path alike. -/
theorem load_data_preserves_metadata (s : TemperatureSource) (csv : List (Int × ℚ)) :
    (s.load_data csv).1.filename = s.filename ∧
    (s.load_data csv).1.recording_location = s.recording_location ∧
    (s.load_data csv).1.path = s.path ∧
    (s.load_data csv).1.owner = s.owner ∧
    (s.load_data csv).1.datetime_col = s.datetime_col ∧
    (s.load_data csv).1.temp_col = s.temp_col ∧
    (s.load_data csv).1.temp_units = s.temp_units ∧
    (s.load_data csv).1.data_tz = s.data_tz ∧
    (s.load_data csv).1.display_tz = s.display_tz ∧
    (s.load_data csv).1.tags = s.tags ∧
    (s.load_data csv).1.color = s.color := by
  unfold TemperatureSource.load_data
  split_ifs <;> simp

/-- C10: the night-shading rectangles of the 24-hour-average plot span the
hard-coded clock times 00:00–06:15 and 19:42–23:57 on the x-axis, for
every sun-transition table: the output is a constant, so the mean sunrise
and sunset computed from the input play no role in the shading. -/
theorem plot_period_averages_night_x_fixed (sun_df : List SunRow) :
    (plot_period_averages_night_traces sun_df).map AvgTrace.x =
      [[0, 0, 22500, 22500], [70920, 70920, 86220, 86220]] ∧
    plot_period_averages_night_traces sun_df = plot_period_averages_night_traces [] :=
  ⟨rfl, rfl⟩

/-- C1 (code bug): for a Fahrenheit source, `load_data` computes the
Celsius column correctly as `(F − 32) × 5/9`, but the Kelvin column as
Celsius **minus** 273.15 instead of plus: at `F = 32` it stores
`temperature K = −273.15`, not the `273.15` the claim (and the definition
of the Kelvin scale) requires. -/
theorem load_data_fahrenheit_kelvin_bug :
    ((altitude_src.load_data [(0, 32)]).1.data.bind
        (fun df => df.getCol "temperature C") = some [0]) ∧
    ((altitude_src.load_data [(0, 32)]).1.data.bind
        (fun df => df.getCol "temperature K") = some [-273.15]) ∧
    (-273.15 : ℚ) ≠ (0 : ℚ) + 273.15 := by
  have hC : (altitude_src.load_data [(0, 32)]).1.data.bind
      (fun df => df.getCol "temperature C") = some [TemperatureSource._f2c 32] := rfl
  have hK : (altitude_src.load_data [(0, 32)]).1.data.bind
      (fun df => df.getCol "temperature K") =
        some [TemperatureSource._f2c 32 - 273.15] := rfl
  refine ⟨?_, ?_, by norm_num⟩
  · rw [hC]
    norm_num [TemperatureSource._f2c]
  · rw [hK]
    norm_num [TemperatureSource._f2c]

/-- C3 (counterexample): on an unsupported unit, `load_data` does raise
the validation error, but the descriptor's observable state is *not*
unchanged: the partially-processed table has already been attached, so the
failed load leaves a different descriptor. -/
theorem load_data_invalid_unit_changes_state :
    ((bad_unit_src.load_data [(0, 70)]).2 =
      Except.error "invalid temperature unit selected, unable to convert") ∧
    (bad_unit_src.load_data [(0, 70)]).1 ≠ bad_unit_src := by
  constructor
  · rfl
  · intro h
    have hdata : (some { datetime := [{ utc := 25200, tz := PACIFIC_TZ }]
                         cols := [("temperature X", [70])] } : Option DataFrame) = none :=
      congrArg TemperatureSource.data h
    exact Option.noConfusion hdata

/-- C3 (amended): `load_data` fails with the unsupported-unit error exactly
when the declared unit is neither `"C"` nor `"F"`; on that failure,
however, the descriptor's `data` attribute has already been set to the
renamed, timezone-converted table (with no conversion columns), so the
failed load does change the descriptor's observable state. -/
theorem load_data_invalid_unit_error (s : TemperatureSource) (csv : List (Int × ℚ)) :
    ((∃ e, (s.load_data csv).2 = Except.error e) ↔
      s.temp_units ≠ "C" ∧ s.temp_units ≠ "F") ∧
    (s.temp_units ≠ "C" → s.temp_units ≠ "F" →
      (s.load_data csv).1.data =
        some { datetime := csv.map (fun r => tz_convert s.display_tz (tz_localize s.data_tz r.1))
               cols := [("temperature " ++ s.temp_units, csv.map Prod.snd)] }) := by
  unfold TemperatureSource.load_data
  split_ifs with h1 h2
  · simp [h1]
  · simp [h1, h2]
  · simp [h1, h2]

/-- Witness for C3 (amended): the registry-shaped descriptor with unit
`"X"` fails, and its `data` attribute ends up holding the
partially-processed one-row table. -/
theorem load_data_invalid_unit_error_witness :
    (∃ e, (bad_unit_src.load_data [(0, 70)]).2 = Except.error e) ∧
    (bad_unit_src.load_data [(0, 70)]).1.data =
      some { datetime := [{ utc := 25200, tz := PACIFIC_TZ }]
             cols := [("temperature X", [70])] } := by
  have h := load_data_invalid_unit_error bad_unit_src [(0, 70)]
  refine ⟨h.1.mpr ⟨by decide, by decide⟩, ?_⟩
  exact h.2 (by decide) (by decide)

/-- C4: after a successful `load_data`, every timestamp of the attached
series carries the source's display timezone, and is the naive input
localized to the recording timezone then converted to the display one. -/
theorem load_data_timestamps_display_tz (s : TemperatureSource) (csv : List (Int × ℚ))
    (df : DataFrame)
    (hok : (s.load_data csv).2 = Except.ok ())
    (hdf : (s.load_data csv).1.data = some df) :
    df.datetime = csv.map (fun r => tz_convert s.display_tz (tz_localize s.data_tz r.1)) ∧
    ∀ t ∈ df.datetime, t.tz = s.display_tz := by
  unfold TemperatureSource.load_data at hok hdf
  split_ifs at hok hdf with h1 h2 <;>
    (dsimp only at hdf
     rw [Option.some_inj] at hdf
     subst hdf
     refine ⟨by rw [DataFrame.setCol_datetime, DataFrame.setCol_datetime], ?_⟩
     intro t ht
     rw [DataFrame.setCol_datetime, DataFrame.setCol_datetime] at ht
     simp only [List.mem_map] at ht
     obtain ⟨r, hr, rfl⟩ := ht
     rfl)

/-- Witness for C4: the UTC-recorded h12yurt source, loaded with the
one-row CSV `[(1000, 20)]`, ends with its timestamp expressed in the
Pacific display timezone. -/
theorem load_data_timestamps_display_tz_witness :
    h12yurt_loaded_df.datetime =
      [((1000 : Int), (20 : ℚ))].map
        (fun r => tz_convert h12yurt_src.display_tz (tz_localize h12yurt_src.data_tz r.1)) ∧
    ∀ t ∈ h12yurt_loaded_df.datetime, t.tz = h12yurt_src.display_tz :=
  load_data_timestamps_display_tz h12yurt_src [(1000, 20)] h12yurt_loaded_df rfl rfl

/-- Element `i` of the sun-transition table: day `start + i`'s sunrise and
sunset converted to Pacific time, with the previous day's sunset carried
alongside (`none` in row 0). -/
theorem get_sun_transitions_getElem (f g : Nat → Int) (a b i : Nat) (hi : i < b + 1 - a) :
    (get_sun_transitions f g a b)[i]? = some
      { sunrise := tz_convert PACIFIC_TZ { utc := f (a + i), tz := UTC_TZ }
        sunset := tz_convert PACIFIC_TZ { utc := g (a + i), tz := UTC_TZ }
        prev_sunset :=
          if i = 0 then none
          else some (tz_convert PACIFIC_TZ { utc := g (a + (i - 1)), tz := UTC_TZ }) } := by
  unfold get_sun_transitions date_range
  dsimp only
  rw [List.zip_eq_zipWith, List.zip_eq_zipWith]
  simp only [List.getElem?_map, List.getElem?_zipWith, List.length_map,
    List.length_range', List.getElem?_take_of_lt hi,
    List.getElem?_range' _ _ hi, one_mul, Option.map_some']
  rcases i with _ | j
  · simp
  · have hj : j < b + 1 - a := by omega
    simp only [List.getElem?_cons_succ, List.getElem?_map,
      List.getElem?_range' _ _ hj, one_mul, Option.map_some']
    simp [Nat.add_sub_cancel]

/-- C5: for every start/end pair, `get_sun_transitions` yields one row per
day of the inclusive range; each row holds that day's sunrise and sunset
converted to the (Pacific) display timezone; the first row's
`prev_sunset` is `NaT`, and every later row's `prev_sunset` is exactly the
preceding row's sunset. -/
theorem get_sun_transitions_rows (f g : Nat → Int) (a b : Nat) :
    (get_sun_transitions f g a b).length = b + 1 - a ∧
    (∀ i row, (get_sun_transitions f g a b)[i]? = some row →
      row.sunrise = tz_convert PACIFIC_TZ { utc := f (a + i), tz := UTC_TZ } ∧
      row.sunset = tz_convert PACIFIC_TZ { utc := g (a + i), tz := UTC_TZ }) ∧
    (∀ row, (get_sun_transitions f g a b)[0]? = some row → row.prev_sunset = none) ∧
    (∀ i row row', (get_sun_transitions f g a b)[i]? = some row →
      (get_sun_transitions f g a b)[i + 1]? = some row' →
      row'.prev_sunset = some row.sunset) := by
  have hlen : (get_sun_transitions f g a b).length = b + 1 - a := by
    unfold get_sun_transitions date_range
    dsimp only
    simp [List.length_zip]
  have hget : ∀ i row, (get_sun_transitions f g a b)[i]? = some row → i < b + 1 - a := by
    intro i row h
    rcases Nat.lt_or_ge i (b + 1 - a) with hlt | hge
    · exact hlt
    · rw [List.getElem?_eq_none (by rw [hlen]; exact hge)] at h
      exact Option.noConfusion h
  refine ⟨hlen, ?_, ?_, ?_⟩
  · intro i row h
    have hi := hget i row h
    rw [get_sun_transitions_getElem f g a b i hi] at h
    rw [Option.some_inj] at h
    subst h
    exact ⟨rfl, rfl⟩
  · intro row h
    have hi := hget 0 row h
    rw [get_sun_transitions_getElem f g a b 0 hi] at h
    rw [Option.some_inj] at h
    subst h
    rfl
  · intro i row row' h h'
    have hi := hget i row h
    have hi' := hget (i + 1) row' h'
    rw [get_sun_transitions_getElem f g a b i hi] at h
    rw [get_sun_transitions_getElem f g a b (i + 1) hi'] at h'
    rw [Option.some_inj] at h h'
    subst h
    subst h'
    simp

/-- Witness for C5: a three-day range with explicit sunrise/sunset
functions; row 1's `prev_sunset` is row 0's sunset. -/
theorem get_sun_transitions_rows_witness :
    ((get_sun_transitions (fun d => (d : Int)) (fun d => 2 * (d : Int)) 5 7)[0]? =
      some { sunrise := { utc := 5, tz := PACIFIC_TZ }
             sunset := { utc := 10, tz := PACIFIC_TZ }
             prev_sunset := none }) ∧
    ((get_sun_transitions (fun d => (d : Int)) (fun d => 2 * (d : Int)) 5 7)[1]? =
      some { sunrise := { utc := 6, tz := PACIFIC_TZ }
             sunset := { utc := 12, tz := PACIFIC_TZ }
             prev_sunset := some { utc := 10, tz := PACIFIC_TZ } }) ∧
    ({ sunrise := { utc := 6, tz := PACIFIC_TZ }
       sunset := { utc := 12, tz := PACIFIC_TZ }
       prev_sunset := some { utc := 10, tz := PACIFIC_TZ } } : SunRow).prev_sunset =
      some ({ sunrise := { utc := 5, tz := PACIFIC_TZ }
              sunset := { utc := 10, tz := PACIFIC_TZ }
              prev_sunset := none } : SunRow).sunset :=
  ⟨by decide, by decide,
   (get_sun_transitions_rows (fun d => (d : Int)) (fun d => 2 * (d : Int)) 5 7).2.2.2
     0
     { sunrise := { utc := 5, tz := PACIFIC_TZ }
       sunset := { utc := 10, tz := PACIFIC_TZ }
       prev_sunset := none }
     { sunrise := { utc := 6, tz := PACIFIC_TZ }
       sunset := { utc := 12, tz := PACIFIC_TZ }
       prev_sunset := some { utc := 10, tz := PACIFIC_TZ } }
     (by decide) (by decide)⟩

/-- C6: each night rectangle built by `get_night_rect_traces` (at its
Python defaults) spans exactly `prev_sunset`..`sunrise` on the x-axis and
exactly the fixed display range 50..110 (`TEMPERATURE_RANGE`) on the
y-axis. -/
theorem get_night_rect_traces_spans (df : List SunRow) (i : Nat) (tr : RectTrace)
    (h : (get_night_rect_traces df "gray" "night" TEMPERATURE_RANGE)[i]? = some tr) :
    ∃ row, df[i]? = some row ∧
      tr.x = [row.prev_sunset, row.prev_sunset, some row.sunrise, some row.sunrise] ∧
      tr.y = [50, 110, 110, 50] := by
  unfold get_night_rect_traces at h
  rw [List.getElem?_map, List.getElem?_enum] at h
  cases hdf : df[i]? with
  | none => rw [hdf] at h; exact Option.noConfusion h
  | some row =>
    rw [hdf] at h
    simp only [Option.map_some', Option.some_inj] at h
    subst h
    exact ⟨row, rfl, rfl, rfl⟩

/-- Witness for C6: a one-row table; the single rectangle spans the row's
`prev_sunset`..`sunrise` and 50..110. -/
theorem get_night_rect_traces_spans_witness :
    ∃ row,
      ([({ sunrise := { utc := 100, tz := PACIFIC_TZ }
           sunset := { utc := 200, tz := PACIFIC_TZ }
           prev_sunset := some { utc := 50, tz := PACIFIC_TZ } } : SunRow)])[0]? = some row ∧
      ({ x := [some { utc := 50, tz := PACIFIC_TZ }, some { utc := 50, tz := PACIFIC_TZ },
               some { utc := 100, tz := PACIFIC_TZ }, some { utc := 100, tz := PACIFIC_TZ }]
         y := [50, 110, 110, 50]
         fill := "toself"
         fillcolor := "gray"
         mode := "lines"
         line_width := 0
         opacity := 3 / 10
         showlegend := true
         name := "night" } : RectTrace).x =
        [row.prev_sunset, row.prev_sunset, some row.sunrise, some row.sunrise] ∧
      ({ x := [some { utc := 50, tz := PACIFIC_TZ }, some { utc := 50, tz := PACIFIC_TZ },
               some { utc := 100, tz := PACIFIC_TZ }, some { utc := 100, tz := PACIFIC_TZ }]
         y := [50, 110, 110, 50]
         fill := "toself"
         fillcolor := "gray"
         mode := "lines"
         line_width := 0
         opacity := 3 / 10
         showlegend := true
         name := "night" } : RectTrace).y = [50, 110, 110, 50] :=
  get_night_rect_traces_spans
    [{ sunrise := { utc := 100, tz := PACIFIC_TZ }
       sunset := { utc := 200, tz := PACIFIC_TZ }
       prev_sunset := some { utc := 50, tz := PACIFIC_TZ } }] 0 _ rfl

/-- C8 (counterexample): two Pacific timestamps whose clock time is 06:00
(21600 s) on consecutive days cluster at the same point of day with no
wraparound, and the mean of their clock times is 21600; but `mean_time`
averages the full epoch seconds, so the half-day mean of the date parts
leaks in and it returns 18:00 (64800 s). -/
theorem mean_time_not_clock_mean :
    ZonedTs.wall (pacific_wall 21600) % 86400 = 21600 ∧
    ZonedTs.wall (pacific_wall (86400 + 21600)) % 86400 = 21600 ∧
    mean_time [pacific_wall 21600, pacific_wall (86400 + 21600)] true = 64800 ∧
    (64800 : ℚ) ≠ 21600 := by
  have hfloor : (⌊(64800 : ℚ) / 86400⌋ : ℤ) = 0 := by
    rw [Int.floor_eq_zero_iff, Set.mem_Ico]
    constructor <;> norm_num
  refine ⟨by decide, by decide, ?_, by norm_num⟩
  have harg : mean_time [pacific_wall 21600, pacific_wall (86400 + 21600)] true
      = qmod 64800 86400 := by
    unfold mean_time
    norm_num [listMean, ts_to_epoch_seconds, pacific_wall, PACIFIC_TZ]
  rw [harg]
  unfold qmod
  rw [hfloor]
  norm_num

/-- Epoch-seconds sum of Pacific wall-clock timestamps split as
`86400·day + seconds-of-day`. -/
theorem epoch_sum_split (l : List (Int × Int)) :
    (ts_to_epoch_seconds (l.map (fun p => pacific_wall (86400 * p.1 + p.2)))).sum =
      86400 * ((l.map Prod.fst).sum : ℚ) + ((l.map Prod.snd).sum : ℚ)
        + 25200 * l.length := by
  induction l with
  | nil => simp [ts_to_epoch_seconds]
  | cons p rest ih =>
    simp only [ts_to_epoch_seconds, List.map_cons, List.sum_cons,
      List.length_cons, pacific_wall, PACIFIC_TZ] at ih ⊢
    rw [ih]
    push_cast
    ring

/-- A list of seconds-of-day values has a nonnegative sum bounded by
`86400 ·` its length. -/
theorem sum_secs_bounds (l : List Int) (h : ∀ s ∈ l, 0 ≤ s ∧ s < 86400) :
    0 ≤ l.sum ∧ l.sum ≤ 86400 * l.length := by
  induction l with
  | nil => simp
  | cons s rest ih =>
    have hs := h s (by simp)
    have hr := ih (fun x hx => h x (by simp [hx]))
    simp only [List.sum_cons, List.length_cons]
    push_cast
    omega

/-- Strict version of `sum_secs_bounds` for a nonempty list. -/
theorem sum_secs_lt (l : List Int) (hne : l ≠ []) (h : ∀ s ∈ l, 0 ≤ s ∧ s < 86400) :
    l.sum < 86400 * l.length := by
  cases l with
  | nil => exact absurd rfl hne
  | cons s rest =>
    have hs := h s (by simp)
    have hr := sum_secs_bounds rest (fun x hx => h x (by simp [hx]))
    simp only [List.sum_cons, List.length_cons]
    push_cast
    omega

/-- `qmod` drops whole multiples of the day. -/
theorem qmod_add_int_mul (k : ℤ) (x : ℚ) (h0 : 0 ≤ x) (h1 : x < 86400) :
    qmod (86400 * (k : ℚ) + x) 86400 = x := by
  unfold qmod
  have hdiv : (86400 * (k : ℚ) + x) / 86400 = x / 86400 + (k : ℚ) := by
    field_simp
    ring
  rw [hdiv, Int.floor_add_int]
  have hf : ⌊x / 86400⌋ = 0 := by
    rw [Int.floor_eq_zero_iff, Set.mem_Ico]
    exact ⟨div_nonneg h0 (by norm_num), (div_lt_one (by norm_num)).mpr h1⟩
  rw [hf]
  push_cast
  ring

/-- C8 (amended): `mean_time` returns the time of day of the arithmetic
mean of the full epoch timestamps.  For timestamps at seconds-of-day
`p.2` on day numbers `p.1`, this equals the plain (equivalently circular,
under the no-wraparound clustering premise) mean of the clock times
exactly when the day numbers average to a whole day — e.g. an odd run of
consecutive days — not for every clustered series. -/
theorem mean_time_whole_day_mean (l : List (Int × Int))
    (hne : l ≠ [])
    (hs : ∀ p ∈ l, 0 ≤ p.2 ∧ p.2 < 86400)
    (hdvd : (l.length : Int) ∣ (l.map Prod.fst).sum) :
    mean_time (l.map (fun p => pacific_wall (86400 * p.1 + p.2))) true =
      ((l.map Prod.snd).sum : ℚ) / (l.length : ℚ) := by
  obtain ⟨k, hk⟩ := hdvd
  have hn : 0 < l.length := List.length_pos.mpr hne
  have hnq : (0 : ℚ) < (l.length : ℚ) := by exact_mod_cast hn
  have hsnd : ∀ s ∈ l.map Prod.snd, 0 ≤ s ∧ s < 86400 := by
    intro s hsmem
    obtain ⟨p, hp, rfl⟩ := List.mem_map.mp hsmem
    exact hs p hp
  have hsb := sum_secs_bounds (l.map Prod.snd) hsnd
  have hsl := sum_secs_lt (l.map Prod.snd)
    (fun hc => hne (List.map_eq_nil.mp hc)) hsnd
  have hlen2 : (ts_to_epoch_seconds (l.map (fun p => pacific_wall (86400 * p.1 + p.2)))).length
      = l.length := by
    simp [ts_to_epoch_seconds]
  have h0 : (0 : ℚ) ≤ ((l.map Prod.snd).sum : ℚ) / (l.length : ℚ) :=
    div_nonneg (by exact_mod_cast hsb.1) (le_of_lt hnq)
  have h1 : ((l.map Prod.snd).sum : ℚ) / (l.length : ℚ) < 86400 := by
    rw [div_lt_iff hnq]
    have : ((l.map Prod.snd).sum : ℚ) < 86400 * ((l.map Prod.snd).length : ℚ) := by
      exact_mod_cast hsl
    simpa [mul_comm] using this
  show qmod (listMean (ts_to_epoch_seconds (l.map (fun p => pacific_wall (86400 * p.1 + p.2))))
      + (PACIFIC_TZ.offset : ℚ)) 86400 = _
  unfold listMean
  rw [epoch_sum_split, hlen2]
  have hkq : ((l.map Prod.fst).sum : ℚ) = (l.length : ℚ) * (k : ℚ) := by
    exact_mod_cast congrArg (fun z : ℤ => (z : ℚ)) hk
  have hmean : (86400 * ((l.map Prod.fst).sum : ℚ) + ((l.map Prod.snd).sum : ℚ)
        + 25200 * l.length) / (l.length : ℚ) + (PACIFIC_TZ.offset : ℚ)
      = 86400 * (k : ℚ) + ((l.map Prod.snd).sum : ℚ) / (l.length : ℚ) := by
    rw [hkq]
    show _ + ((-25200 : ℤ) : ℚ) = _
    field_simp
    ring
  rw [hmean]
  exact qmod_add_int_mul k _ h0 h1

/-- Witness for C8 (amended): three consecutive days at clock time 06:00;
the day numbers average to a whole day, and `mean_time` returns 06:00
(21600 s). -/
theorem mean_time_whole_day_mean_witness :
    mean_time ([((0 : Int), (21600 : Int)), (1, 21600), (2, 21600)].map
      (fun p => pacific_wall (86400 * p.1 + p.2))) true = 21600 := by
  have h := mean_time_whole_day_mean [((0 : Int), (21600 : Int)), (1, 21600), (2, 21600)]
    (by simp) (by norm_num) (by norm_num)
  rw [h]
  norm_num

/-- C7 (counterexample): the two-reading series `00:01 → 42` on two
consecutive days spans exactly two days with identical values at each time
of day, but the aggregated curve has *no* row at the input's time of day
00:01 — resampling floors every label to the 3-minute grid, so the
averaged curve is not equal to the input curve. -/
theorem daily_mean_two_day_counterexample :
    ((1 : Nat), (42 : ℚ)) ∈ [((1 : Nat), (42 : ℚ))] ∧
    daily_mean_for_source ([((1 : Nat), (42 : ℚ))] ++ shiftDay [((1 : Nat), (42 : ℚ))])
      (1 % 1440) = none :=
  ⟨by simp, rfl⟩

/-- `getLast? = some x` implies membership. -/
theorem mem_of_getLast?_eq {α : Type} (l : List α) (x : α)
    (h : l.getLast? = some x) : x ∈ l := by
  obtain ⟨hne, hx⟩ := List.mem_getLast?_eq_getLast (show x ∈ l.getLast? from h)
  exact hx ▸ List.getLast_mem hne

/-- On a strictly time-sorted series, `find?` for the first observation at
or after a member's time finds exactly that member. -/
theorem find?_ge_of_sorted (l : List (Nat × ℚ)) (t : Nat) (v : ℚ)
    (hsort : (l.map Prod.fst).Pairwise (fun x y => x < y)) (hm : (t, v) ∈ l) :
    l.find? (fun p => decide (t ≤ p.1)) = some (t, v) := by
  induction l with
  | nil => cases hm
  | cons p rest ih =>
    simp only [List.map_cons] at hsort
    rcases List.mem_cons.mp hm with hm | hm
    · rw [← hm]
      exact List.find?_cons_of_pos rest (by simp)
    · have hlt : p.1 < t :=
        List.rel_of_pairwise_cons hsort (List.mem_map_of_mem Prod.fst hm)
      rw [List.find?_cons_of_neg rest (by simp; omega)]
      exact ih (List.Pairwise.of_cons hsort) hm

/-- `find?` for an observation at or after `t + 1440` on the day-shifted
series is the shift of `find?` at `t` on the original one. -/
theorem find?_shiftDay (l : List (Nat × ℚ)) (t : Nat) :
    (shiftDay l).find? (fun p => decide (t + 1440 ≤ p.1)) =
      (l.find? (fun p => decide (t ≤ p.1))).map (fun p => (p.1 + 1440, p.2)) := by
  unfold shiftDay
  rw [List.find?_map]
  have hpred : ((fun p : Nat × ℚ => decide (t + 1440 ≤ p.1)) ∘ fun p : Nat × ℚ => (p.1 + 1440, p.2))
      = fun p : Nat × ℚ => decide (t ≤ p.1) := by
    funext p
    simp only [Function.comp_apply]
    exact decide_eq_decide.mpr (by omega)
  rw [hpred]

/-- Back-fill of the two-day series at a time of the first day returns
that observation's value. -/
theorem bfill_at_mem (day0 : List (Nat × ℚ)) (t : Nat) (v : ℚ)
    (hsort : (day0.map Prod.fst).Pairwise (fun x y => x < y)) (hm : (t, v) ∈ day0) :
    bfill_at (day0 ++ shiftDay day0) t = some v := by
  unfold bfill_at
  rw [List.find?_append, find?_ge_of_sorted day0 t v hsort hm]
  rfl

/-- Back-fill of the two-day series at `t + 1440` returns the same value
as at `t`, for `t` an observation time of the first day. -/
theorem bfill_at_mem_shift (day0 : List (Nat × ℚ)) (a b t : Nat) (v : ℚ)
    (hsort : (day0.map Prod.fst).Pairwise (fun x y => x < y)) (hm : (t, v) ∈ day0)
    (hub : ∀ p ∈ day0, p.1 ≤ b) (hspan : b < a + 1440) (hat : a ≤ t) :
    bfill_at (day0 ++ shiftDay day0) (t + 1440) = some v := by
  unfold bfill_at
  rw [List.find?_append]
  have hnone : day0.find? (fun p => decide (t + 1440 ≤ p.1)) = none := by
    rw [List.find?_eq_none]
    intro p hp
    have := hub p hp
    simp
    omega
  rw [hnone, find?_shiftDay, find?_ge_of_sorted day0 t v hsort hm]
  rfl

/-- A `filterMap` whose function is constantly `some v` on the list is a
`replicate`. -/
theorem filterMap_eq_replicate (l : List Nat) (f : Nat → Option ℚ) (v : ℚ)
    (h : ∀ x ∈ l, f x = some v) :
    l.filterMap f = List.replicate l.length v := by
  induction l with
  | nil => rfl
  | cons x rest ih =>
    rw [List.filterMap_cons, h x (by simp), List.length_cons, List.replicate_succ,
      ih (fun y hy => h y (by simp [hy]))]

/-- The mean of `n > 0` copies of `v` is `v`. -/
theorem listMean_replicate (n : Nat) (v : ℚ) (hn : 0 < n) :
    listMean (List.replicate n v) = v := by
  unfold listMean
  rw [List.sum_replicate, List.length_replicate, nsmul_eq_mul]
  exact mul_div_cancel_left₀ v (by exact_mod_cast hn.ne')

/-- The head of a strictly time-sorted series has the minimal time. -/
theorem head_le_of_sorted (l : List (Nat × ℚ)) (a : Nat) (va : ℚ)
    (hsort : (l.map Prod.fst).Pairwise (fun x y => x < y)) (hh : l.head? = some (a, va)) :
    ∀ p ∈ l, a ≤ p.1 := by
  cases l with
  | nil => exact absurd hh (by simp)
  | cons q rest =>
    simp only [List.head?_cons, Option.some_inj] at hh
    subst hh
    simp only [List.map_cons] at hsort
    intro p hp
    rcases List.mem_cons.mp hp with rfl | hp
    · exact le_refl _
    · exact le_of_lt (List.rel_of_pairwise_cons hsort (List.mem_map_of_mem Prod.fst hp))

/-- The last element of a strictly time-sorted series has the maximal
time. -/
theorem le_getLast_of_sorted (l : List (Nat × ℚ)) (b : Nat) (vb : ℚ)
    (hsort : (l.map Prod.fst).Pairwise (fun x y => x < y)) (hl : l.getLast? = some (b, vb)) :
    ∀ p ∈ l, p.1 ≤ b := by
  induction l with
  | nil => exact absurd hl (by simp)
  | cons q rest ih =>
    simp only [List.map_cons] at hsort
    cases rest with
    | nil =>
      simp only [List.getLast?_singleton, Option.some_inj] at hl
      subst hl
      intro p hp
      rcases List.mem_cons.mp hp with rfl | hp
      · exact le_refl _
      · cases hp
    | cons r rest2 =>
      rw [List.getLast?_cons_cons] at hl
      intro p hp
      rcases List.mem_cons.mp hp with rfl | hp
      · have hbmem : (b, vb) ∈ r :: rest2 := mem_of_getLast?_eq _ _ hl
        exact le_of_lt
          (List.rel_of_pairwise_cons hsort (List.mem_map_of_mem Prod.fst hbmem))
      · exact ih (List.Pairwise.of_cons (by simpa using hsort)) hl p hp

/-- The two-day series ends one day after the one-day series does. -/
theorem getLast?_two_day (day0 : List (Nat × ℚ)) (b : Nat) (vb : ℚ)
    (hl : day0.getLast? = some (b, vb)) :
    (day0 ++ shiftDay day0).getLast? = some (b + 1440, vb) := by
  rw [List.getLast?_append]
  unfold shiftDay
  rw [List.getLast?_map, hl]
  rfl

/-- C7 (amended): for a series spanning exactly two days — a one-day,
strictly sorted block of readings on the 3-minute grid followed by its
copy one day later, so that values are identical at each time of day —
the daily-average aggregation of `daily_mean_for_source` returns, at each
input time of day, exactly the input's value there. -/
theorem daily_mean_two_day (day0 : List (Nat × ℚ)) (a b : Nat) (va vb : ℚ)
    (hhead : day0.head? = some (a, va))
    (hlast : day0.getLast? = some (b, vb))
    (hsort : (day0.map Prod.fst).Pairwise (fun x y => x < y))
    (hspan : b < a + 1440)
    (hdiv : ∀ p ∈ day0, 3 ∣ p.1)
    (t : Nat) (v : ℚ) (hmem : (t, v) ∈ day0) :
    daily_mean_for_source (day0 ++ shiftDay day0) (t % 1440) = some v := by
  have hub : ∀ p ∈ day0, p.1 ≤ b := le_getLast_of_sorted day0 b vb hsort hlast
  have hlb : ∀ p ∈ day0, a ≤ p.1 := head_le_of_sorted day0 a va hsort hhead
  have hat : a ≤ t := hlb (t, v) hmem
  have htb : t ≤ b := hub (t, v) hmem
  have h3a : 3 ∣ a := hdiv (a, va) (List.mem_of_mem_head? (show (a, va) ∈ day0.head? from hhead))
  have h3t : 3 ∣ t := hdiv (t, v) hmem
  have hheadfull : (day0 ++ shiftDay day0).head? = some (a, va) := by
    rw [List.head?_append, hhead]
    rfl
  have hlastfull : (day0 ++ shiftDay day0).getLast? = some (b + 1440, vb) :=
    getLast?_two_day day0 b vb hlast
  have hfloor : floor3 a = a := by
    unfold floor3
    omega
  have hval : ∀ g ∈ resample_grid a (b + 1440), (g % 1440 == t % 1440) = true →
      bfill_at (day0 ++ shiftDay day0) g = some v := by
    intro g hg hbeq
    have hmod : g % 1440 = t % 1440 := by simpa using hbeq
    unfold resample_grid at hg
    rw [hfloor, List.mem_range'] at hg
    obtain ⟨i, hi, rfl⟩ := hg
    have hcases : a + 3 * i = t ∨ a + 3 * i = t + 1440 := by omega
    rcases hcases with h | h
    · rw [h]
      exact bfill_at_mem day0 t v hsort hmem
    · rw [h]
      exact bfill_at_mem_shift day0 a b t v hsort hmem hub hspan hat
  have htg : t ∈ resample_grid a (b + 1440) := by
    unfold resample_grid
    rw [hfloor, List.mem_range']
    exact ⟨(t - a) / 3, by omega, by omega⟩
  have hfilter : ∀ x ∈ (resample_grid a (b + 1440)).filter (fun g => g % 1440 == t % 1440),
      bfill_at (day0 ++ shiftDay day0) x = some v := by
    intro x hx
    have hx2 := List.mem_filter.mp hx
    exact hval x hx2.1 hx2.2
  have hrep := filterMap_eq_replicate _ _ v hfilter
  have htf : t ∈ (resample_grid a (b + 1440)).filter (fun g => g % 1440 == t % 1440) :=
    List.mem_filter.mpr ⟨htg, by simp⟩
  have hpos : 0 <
      ((resample_grid a (b + 1440)).filter (fun g => g % 1440 == t % 1440)).length :=
    List.length_pos.mpr (List.ne_nil_of_mem htf)
  unfold daily_mean_for_source
  rw [hheadfull, hlastfull]
  dsimp only
  rw [hrep]
  rw [if_neg (by
    rw [List.isEmpty_iff]
    intro hc
    rw [List.replicate_eq_nil] at hc
    omega)]
  rw [listMean_replicate _ v hpos]

/-- Witness for C7 (amended): one 08:00 reading of 71 °F repeated on the
next day; the averaged curve at 08:00 is 71. -/
theorem daily_mean_two_day_witness :
    daily_mean_for_source
      ([((480 : Nat), (71 : ℚ))] ++ shiftDay [((480 : Nat), (71 : ℚ))])
      (480 % 1440) = some 71 :=
  daily_mean_two_day [((480 : Nat), (71 : ℚ))] 480 480 71 71 rfl rfl
    (by simp) (by omega) (by decide) 480 71 (by simp)
